import Mathlib

/-!
Shallow embedding of the pull policy / candidate-waterfall engine
(`libimage/pull.go`) and the multi-name export assembler
(`libimage/save.go`) of `mtrmac/common`, with the external collaborators
(containers/image reference parsing, the local image store, the transport
copier, the archive writers, the short-name resolver) modelled as oracle
fields of explicit "world" structures.  Every control-flow decision made by
the two source files is reproduced; external calls are looked up in the
world and their results drive the same branches as in the Go code.
-/

namespace LibImage

/-- Model of Go errors as they flow through libimage's pull and save paths.
`imageUnknown` stands for `storage.ErrImageUnknown`; `wrap s e` models
`fmt.Errorf("<s>: %w", e)` (and `errors.Wrap`); `formatted errs` models the
aggregate produced by `resolved.FormatPullErrors(errs)`, keeping every
per-candidate error; `msg` is any other leaf error. -/
inductive GoErr where
  | imageUnknown : GoErr
  | msg : String → GoErr
  | wrap : String → GoErr → GoErr
  | formatted : List GoErr → GoErr

mutual

/-- Structural equality test on `GoErr`. -/
def GoErr.beq : GoErr → GoErr → Bool
  | .imageUnknown, .imageUnknown => true
  | .msg a, .msg b => a == b
  | .wrap a e, .wrap b f => a == b && GoErr.beq e f
  | .formatted l, .formatted m => GoErr.beqList l m
  | _, _ => false

/-- Pointwise `GoErr.beq` on lists of errors. -/
def GoErr.beqList : List GoErr → List GoErr → Bool
  | [], [] => true
  | a :: la, b :: lb => GoErr.beq a b && GoErr.beqList la lb
  | _, _ => false

end

instance : BEq GoErr := ⟨GoErr.beq⟩

/-- Model of `errors.Is(err, storage.ErrImageUnknown)`: the error is
`imageUnknown` itself or wraps it via `%w`. -/
def GoErr.isImageUnknown : GoErr → Bool
  | .imageUnknown => true
  | .wrap _ e => e.isImageUnknown
  | _ => false

mutual

/-- Rendering of an error to its Go `Error()` string (used by
`errors.Wrap(finalErr, err.Error())` in the archive-writer close paths). -/
def GoErr.render : GoErr → String
  | .imageUnknown => "image not known"
  | .msg s => s
  | .wrap s e => s ++ ": " ++ e.render
  | .formatted l => GoErr.renderList l

/-- Rendering of an error list, seperated by semicolons. -/
def GoErr.renderList : List GoErr → String
  | [] => ""
  | [e] => e.render
  | e :: es => e.render ++ "; " ++ GoErr.renderList es

end

/-- Model of a parsed docker reference (`reference.Named` of
containers/image): a repository name plus an optional tag and an optional
digest.  The type assertion `named.(reference.NamedTagged)` succeeds exactly
when a tag is present. -/
structure NamedRef where
  repo : String
  tag : Option String
  digest : Option String
deriving DecidableEq

/-- Model of `Named.String()`: repository, `:tag` if tagged, `@digest` if
digested. -/
def nameStr (n : NamedRef) : String :=
  n.repo
    ++ (match n.tag with | some t => ":" ++ t | none => "")
    ++ (match n.digest with | some d => "@" ++ d | none => "")

/-- Model of `reference.TrimNamed`: drop tag and digest. -/
def trimNamed (n : NamedRef) : NamedRef :=
  { repo := n.repo, tag := none, digest := none }

/-- Model of the `named.(reference.NamedTagged)` type assertion: succeeds
exactly when the reference carries a tag. -/
def isNamedTagged (n : NamedRef) : Bool :=
  n.tag.isSome

/-- Model of `strings.HasPrefix(s, p)`, computed on the character lists so
that it reduces definitionally. -/
def strHasPrefix (s p : String) : Bool :=
  p.data.isPrefixOf s.data

/-- Model of `config.PullPolicy`.  `unsupported` stands for the zero value
`config.PullPolicyUnsupported` (and any other out-of-range value). -/
inductive PullPolicy where
  | always
  | missing
  | newer
  | never
  | unsupported
deriving DecidableEq

/-- Model of `PullPolicy.Validate`: only the four named policies are valid. -/
def PullPolicy.validate : PullPolicy → Option GoErr
  | .unsupported => some (.msg "unsupported pull policy")
  | _ => none

/-- Model of a local image as returned by the local image store:
its ID and whether `Image.isCorrupted` reports an integrity failure. -/
structure Image where
  id : String
  corrupted : Bool
deriving DecidableEq

/-- Event types used by the pull and save paths. -/
inductive EventType where
  | imagePull
  | imagePullError
  | imageSave
deriving DecidableEq

/-- Model of `libimage.Event` (the `Time` field is omitted: wall-clock time
is not modelled). -/
structure EventData where
  id : String
  name : String
  typ : EventType
  err : Option GoErr

/-- Observable effects of a pull run: calls into the local image store, the
short-name resolver and the transport, the log statements of the waterfall
loop, writes to the caller-supplied writer, and emitted events. -/
inductive Eff where
  | lookup : String → Eff
  | logLookupErr : GoErr → Eff
  | logCorrupted : String → Eff
  | resolveCall : String → Eff
  | getTags : String → Eff
  | logAttempting : String → Eff
  | logSkipNotNewer : String → Eff
  | logErrorPulling : String → GoErr → Eff
  | logRecordErr : String → GoErr → Eff
  | logPulled : String → Eff
  | digestCompare : String → Eff
  | copyAttempt : String → Eff
  | record : String → Eff
  | writeOut : String → Eff
  | event : EventData → Eff
  | warnPlatform : GoErr → Eff

/-- Copy attempts (transport calls) appearing in a trace, by candidate
string. -/
def copyAttemptsOf (tr : List Eff) : List String :=
  tr.filterMap fun e =>
    match e with
    | .copyAttempt s => some s
    | _ => none

/-- Short-name alias recordings appearing in a trace, by candidate string. -/
def recordsOf (tr : List Eff) : List String :=
  tr.filterMap fun e =>
    match e with
    | .record s => some s
    | _ => none

/-- Events appearing in a trace, in emission order. -/
def eventsOf (tr : List Eff) : List EventData :=
  tr.filterMap fun e =>
    match e with
    | .event d => some d
    | _ => none

/-- Effects representing calls into the local store, the resolver or the
transport (as opposed to logging, writer output and events). -/
def Eff.isRemoteOrStore : Eff → Bool
  | .lookup _ => true
  | .resolveCall _ => true
  | .getTags _ => true
  | .digestCompare _ => true
  | .copyAttempt _ => true
  | .record _ => true
  | _ => false

/-- Test whether a trace entry carries the error `e` in one of its logged
payloads. -/
def effMentionsErr (e : GoErr) : Eff → Bool
  | .logLookupErr f => f == e
  | .logErrorPulling _ f => f == e
  | .logRecordErr _ f => f == e
  | _ => false

/-- Model of `LookupImageOptions` as far as the pull path populates it
(platform filter fields only). -/
structure LookupOpts where
  arch : String
  os : String
  variant : String
deriving DecidableEq

/-- Empty lookup options (the Go code's `nil` options). -/
def noLookupOpts : LookupOpts := { arch := "", os := "", variant := "" }

/-- Model of a parsed `types.ImageReference`: its transport name (the Go
code branches on `ref.Transport().Name()` strings) and its
`DockerReference()`. -/
structure PullRef where
  transport : String
  dockerRef : Option NamedRef

/-- Model of one short-name pull candidate: the fully qualified reference
and the outcome its `Record()` call would have. -/
structure Candidate where
  value : NamedRef
  recordErr : Option GoErr

/-- Model of the result of `shortnames.Resolve`: the ordered candidate list
plus the human-readable description. -/
structure ResolvedNames where
  candidates : List Candidate
  description : String

/-- Model of `PullOptions` as far as the embedded code reads it. -/
structure PullOpts where
  allTags : Bool
  arch : String
  os : String
  variant : String
  writerPresent : Bool

/-- Oracle world for the pull path: each field models the observable
behaviour of one external collaborator (containers/image, the containers
storage store, the short-name resolver, the transport copier), or a piece
of ambient state (platform, event sink, context cancellation). -/
structure PullWorld where
  runtimeGOARCH : String
  runtimeGOOS : String
  sysArch : String
  sysOS : String
  sysVariant : String
  eventChannelPresent : Bool
  setupErr : Option GoErr
  parseImageName : String → Except GoErr PullRef
  transportFromImageName : String → Option String
  normalizeTaggedDigested : String → Except GoErr String
  lookupImage : String → LookupOpts → Except GoErr (Image × String)
  matchesPlatform : String → Except GoErr (Option GoErr)
  resolveShortNames : String → Except GoErr ResolvedNames
  newCopierErr : Option GoErr
  newRegistryReference : NamedRef → Option GoErr
  hasDifferentDigest : String → NamedRef → Except GoErr Bool
  parseStoreReference : String → Option GoErr
  writerWrite : String → Option GoErr
  copy : NamedRef → Except GoErr String
  manifestDigest : String → Except GoErr String
  withDigest : NamedRef → String → Except GoErr NamedRef
  newStoreReference : NamedRef → Except GoErr Unit
  resolveStoreReference : NamedRef → Except GoErr Image
  getRepositoryTags : String → Except GoErr (List String)
  withTag : NamedRef → String → Except GoErr NamedRef
  ctxDone : Nat → Bool
  copyFromDockerArchive : PullRef → Except GoErr (List String) × List Eff
  copyFromDefault : PullRef → Except GoErr (List String) × List Eff

/-- Embedding of `Runtime.imageIDForPulledImage` (pull.go): digest the
returned manifest bytes, attach the digest to the trimmed destination name,
build a storage reference for it and resolve it to the stored image's ID. -/
def imageIDForPulledImage (w : PullWorld) (destName : NamedRef)
    (manifestBytes : String) : Except GoErr String :=
  match w.manifestDigest manifestBytes with
  | .error e => .error e
  | .ok d =>
    match w.withDigest (trimNamed destName) d with
    | .error e => .error e
    | .ok destDigested =>
      match w.newStoreReference destDigested with
      | .error e => .error e
      | .ok _ =>
        match w.resolveStoreReference destDigested with
        | .error e => .error (.wrap "looking up a just-pulled image" e)
        | .ok img => .ok img.id

/-- Outcome of one iteration of the candidate waterfall: return
successfully with an image ID, continue to the next candidate (with the
errors appended to `pullErrors` in this iteration), or abort the whole
function with a hard error. -/
inductive StepOut where
  | success : String → StepOut
  | next : List GoErr → StepOut
  | abort : GoErr → StepOut

/-- Embedding of the `writeDesc` closure of `copySingleImageFromRegistry`
(pull.go): writes the short-name resolution description to the
caller-supplied writer at most once.  Returns the write's error, if any,
and the write's trace. -/
def writeDescOutcome (w : PullWorld) (opts : PullOpts) (desc : String)
    (wroteDesc : Bool) : Option GoErr × List Eff :=
  if wroteDesc then (none, [])
  else if desc.length > 0 && opts.writerPresent then
    (w.writerWrite (desc ++ "\n"), [.writeOut (desc ++ "\n")])
  else (none, [])

/-- Embedding of the "Trying to pull ..." write of
`copySingleImageFromRegistry` (pull.go). -/
def tryingOutcome (w : PullWorld) (opts : PullOpts) (cs : String) :
    Option GoErr × List Eff :=
  if opts.writerPresent then
    (w.writerWrite ("Trying to pull " ++ cs ++ "...\n"),
      [.writeOut ("Trying to pull " ++ cs ++ "...\n")])
  else (none, [])

/-- Embedding of the second half of one waterfall iteration in
`copySingleImageFromRegistry` (pull.go): from
`storageTransport.Transport.ParseStoreReference` down to the return of the
pulled image's ID.  `wroteDesc` is the memo flag of the `writeDesc`
closure; it is set by calling `writeDesc` regardless of whether anything
was written. -/
def pullCandidateCopyPhase (w : PullWorld) (opts : PullOpts) (desc : String)
    (c : Candidate) (wroteDesc : Bool) : StepOut × List Eff × Bool :=
  let cs := nameStr c.value
  match w.parseStoreReference cs with
  | some e => (.abort e, [], wroteDesc)
  | none =>
    -- writeDesc(): write the short-name resolution description at most once
    let descOut := writeDescOutcome w opts desc wroteDesc
    match descOut.1 with
    | some e => (.abort e, descOut.2, true)
    | none =>
      let tryingOut := tryingOutcome w opts cs
      match tryingOut.1 with
      | some e => (.abort e, descOut.2 ++ tryingOut.2, true)
      | none =>
        let tr0 := descOut.2 ++ tryingOut.2 ++ [Eff.copyAttempt cs]
        match w.copy c.value with
        | .error e => (.next [e], tr0 ++ [.logErrorPulling cs e], true)
        | .ok manifestBytes =>
          -- candidate.Record(): failures are only logged
          let recTr := Eff.record cs ::
            (match c.recordErr with
             | some e => [Eff.logRecordErr cs e]
             | none => [])
          match imageIDForPulledImage w c.value manifestBytes with
          | .error e => (.abort e, tr0 ++ recTr ++ [.logPulled cs], true)
          | .ok id => (.success id, tr0 ++ recTr ++ [.logPulled cs], true)

/-- Embedding of one full iteration of the candidate waterfall in
`copySingleImageFromRegistry` (pull.go): registry reference creation, the
Newer-policy digest comparison, then the copy phase. -/
def pullCandidateStep (w : PullWorld) (pol : PullPolicy) (li : Option Image)
    (opts : PullOpts) (desc : String) (c : Candidate) (wroteDesc : Bool) :
    StepOut × List Eff × Bool :=
  let cs := nameStr c.value
  match w.newRegistryReference c.value with
  | some e => (.abort e, [.logAttempting cs], wroteDesc)
  | none =>
    match pol, li with
    | .newer, some img =>
      match w.hasDifferentDigest img.id c.value with
      | .error e =>
        (.next [e], [.logAttempting cs, .digestCompare cs], wroteDesc)
      | .ok false =>
        (.next [], [.logAttempting cs, .digestCompare cs, .logSkipNotNewer cs],
          wroteDesc)
      | .ok true =>
        let (out, tr, wrote2) := pullCandidateCopyPhase w opts desc c wroteDesc
        (out, [Eff.logAttempting cs, Eff.digestCompare cs] ++ tr, wrote2)
    | _, _ =>
      let (out, tr, wrote2) := pullCandidateCopyPhase w opts desc c wroteDesc
      (out, Eff.logAttempting cs :: tr, wrote2)

/-- Outcome of the whole candidate waterfall. -/
inductive LoopOut where
  | success : String → LoopOut
  | aborted : GoErr → LoopOut
  | exhausted : List GoErr → LoopOut

/-- Embedding of the `for _, candidate := range resolved.PullCandidates`
loop of `copySingleImageFromRegistry` (pull.go), threading the `writeDesc`
memo flag and the `pullErrors` accumulator. -/
def pullCandidatesLoop (w : PullWorld) (pol : PullPolicy) (li : Option Image)
    (opts : PullOpts) (desc : String) :
    List Candidate → Bool → List GoErr → LoopOut × List Eff
  | [], _, errs => (.exhausted errs, [])
  | c :: rest, wrote, errs =>
    match pullCandidateStep w pol li opts desc c wrote with
    | (.success id, tr, _) => (.success id, tr)
    | (.abort e, tr, _) => (.aborted e, tr)
    | (.next newErrs, tr, wrote2) =>
      let (out, tr2) := pullCandidatesLoop w pol li opts desc rest wrote2
        (errs ++ newErrs)
      (out, tr ++ tr2)

/-- Embedding of the code after the waterfall loop in
`copySingleImageFromRegistry` (pull.go): with policy Newer and a local
image, exhaustion falls back to the local image; with no collected errors
it is an internal error; otherwise the formatted aggregate of all
per-candidate errors is returned. -/
def copySingleFinish (pol : PullPolicy) (li : Option Image)
    (resolvedImageName : String) : LoopOut → Except GoErr String
  | .success id => .ok id
  | .aborted e => .error e
  | .exhausted errs =>
    if li.isSome ∧ pol = .newer then .ok resolvedImageName
    else if errs.isEmpty then
      .error (.msg "internal error: no image pulled")
    else .error (.formatted errs)

/-- Embedding of `Runtime.copySingleImageFromRegistry` (pull.go). -/
def copySingleImageFromRegistry (w : PullWorld) (imageName0 : String)
    (pol0 : PullPolicy) (opts : PullOpts) : Except GoErr String × List Eff :=
  match pol0.validate with
  | some e => (.error e, [])
  | none =>
    let lookupOpts : LookupOpts :=
      { arch := if opts.arch ≠ w.runtimeGOARCH then opts.arch else "",
        os := if opts.os ≠ w.runtimeGOOS then opts.os else "",
        variant := opts.variant }
    -- LookupImage: a non-ImageUnknown lookup error is only logged
    let lk := w.lookupImage imageName0 lookupOpts
    let li0 : Option Image := match lk with
      | .ok (img, _) => some img
      | .error _ => none
    let resolvedImageName : String := match lk with
      | .ok (_, rn) => rn
      | .error _ => ""
    let lkTr : List Eff := Eff.lookup imageName0 ::
      (match lk with
       | .error e => if e.isImageUnknown then [] else [Eff.logLookupErr e]
       | .ok _ => [])
    -- a corrupted local image is discarded
    let corTr : List Eff := match li0 with
      | some img => if img.corrupted then [.logCorrupted img.id] else []
      | none => []
    let li : Option Image := match li0 with
      | some img => if img.corrupted then none else some img
      | none => none
    let baseTr := lkTr ++ corTr
    let customPlatform :=
      opts.arch.length + opts.os.length + opts.variant.length > 0
    let pol := if customPlatform ∧ pol0 ≠ .always ∧ pol0 ≠ .never
      then PullPolicy.newer else pol0
    if pol = .never then
      match li with
      | some _ => (.ok resolvedImageName, baseTr)
      | none => (.error (.wrap imageName0 .imageUnknown), baseTr)
    else if pol = .missing ∧ li.isSome then
      (.ok resolvedImageName, baseTr)
    else
      -- an image looked up by (a prefix of) its ID cannot be pulled
      let idMatch := match li with
        | some img => strHasPrefix img.id imageName0
        | none => false
      if idMatch then
        if pol = .always then
          (.error (.msg ("pull policy is always but image has been referred to by ID ("
            ++ imageName0 ++ ")")), baseTr)
        else (.ok resolvedImageName, baseTr)
      else
        let imageName := if li.isSome ∧ ¬customPlatform
          then resolvedImageName else imageName0
        match w.resolveShortNames imageName with
        | .error e =>
          if li.isSome ∧ pol = .newer then
            (.ok resolvedImageName, baseTr ++ [.resolveCall imageName])
          else (.error e, baseTr ++ [.resolveCall imageName])
        | .ok resolved =>
          match w.newCopierErr with
          | some e => (.error e, baseTr ++ [.resolveCall imageName])
          | none =>
            let (out, loopTr) := pullCandidatesLoop w pol li opts
              resolved.description resolved.candidates false []
            (copySingleFinish pol li resolvedImageName out,
              baseTr ++ [.resolveCall imageName] ++ loopTr)

/-- Embedding of the all-tags loop of `Runtime.copyFromRegistry`
(pull.go): before each tag the context is polled (`i` counts polls); a
done context aborts with "pulling cancelled", discarding the IDs collected
so far (the traces of earlier iterations are kept: nothing undoes the
earlier copies). -/
def allTagsLoop (w : PullWorld) (pol : PullPolicy) (opts : PullOpts)
    (named : NamedRef) : List String → Nat →
    Except GoErr (List String) × List Eff
  | [], _ => (.ok [], [])
  | tag :: rest, i =>
    if w.ctxDone i then (.error (.msg "pulling cancelled"), [])
    else
      match w.withTag named tag with
      | .error e =>
        (.error (.wrap ("creating tagged reference (name " ++ nameStr named
          ++ ", tag " ++ tag ++ ")") e), [])
      | .ok tagged =>
        match copySingleImageFromRegistry w (nameStr tagged) pol opts with
        | (.error e, tr) => (.error e, tr)
        | (.ok pulled, tr) =>
          let (res, tr2) := allTagsLoop w pol opts named rest (i + 1)
          match res with
          | .error e => (.error e, tr ++ tr2)
          | .ok ids => (.ok (pulled :: ids), tr ++ tr2)

/-- Embedding of `Runtime.copyFromRegistry` (pull.go). -/
def copyFromRegistry (w : PullWorld) (ref : PullRef) (inputName : String)
    (pol : PullPolicy) (opts : PullOpts) :
    Except GoErr (List String) × List Eff :=
  match pol.validate with
  | some e => (.error e, [])
  | none =>
    if ¬opts.allTags then
      match copySingleImageFromRegistry w inputName pol opts with
      | (.error e, tr) => (.error e, tr)
      | (.ok pulled, tr) => (.ok [pulled], tr)
    else
      match ref.dockerRef with
      | none => (.error (.msg "internal error: nil docker reference"), [])
      | some dr =>
        let named := trimNamed dr
        match w.getRepositoryTags (nameStr dr) with
        | .error e => (.error e, [.getTags (nameStr dr)])
        | .ok tags =>
          let (res, tr) := allTagsLoop w pol opts named tags 0
          (res, Eff.getTags (nameStr dr) :: tr)

/-- Embedding of the loop over `pulledImages` at the end of `Runtime.Pull`
(pull.go): look each pulled name up again, run the advisory platform
check, emit a pull event per pulled name, and collect the images. -/
def pullFinish (w : PullWorld) (inputName : String) :
    List String → Except GoErr (List String) × List Eff
  | [] => (.ok [], [])
  | iName :: rest =>
    match w.lookupImage iName noLookupOpts with
    | .error e =>
      (.error (.wrap ("locating pulled image " ++ iName
        ++ " name in containers storage") e), [.lookup iName])
    | .ok (img, _) =>
      match w.matchesPlatform img.id with
      | .error e =>
        (.error (.wrap ("checking platform of image " ++ inputName) e),
          [.lookup iName])
      | .ok matchErr =>
        let warnTr : List Eff := match matchErr with
          | some me => [.warnPlatform me]
          | none => []
        let evTr : List Eff := if w.eventChannelPresent then
            [.event ⟨img.id, inputName, .imagePull, none⟩]
          else []
        let (res, tr2) := pullFinish w inputName rest
        match res with
        | .error e => (.error e, Eff.lookup iName :: warnTr ++ evTr ++ tr2)
        | .ok ids =>
          (.ok (img.id :: ids), Eff.lookup iName :: warnTr ++ evTr ++ tr2)

/-- The classification at pull.go line 101 of a name that did not parse as
a transport-qualified reference: it "clearly refers to a local image" when
it has the `sha256:` prefix or is 64 characters long containing none of
`/`, `.`, `:`, `@` (`strings.ContainsAny(name, "/.:@")`). -/
def looksLikeLocalID (s : String) : Bool :=
  strHasPrefix s "sha256:"
    || (s.data.length == 64
      && !(s.data.any fun c => c == '/' || c == '.' || c == ':' || c == '@'))

/-- Claim-side notion used by C8: a 64-character hexadecimal string. -/
def isHex64 (s : String) : Bool :=
  s.data.length == 64
    && s.data.all fun c =>
      c.isDigit || ('a' ≤ c && c ≤ 'f') || ('A' ≤ c && c ≤ 'F')

/-- Defaulting of the platform options from the system context
(pull.go lines 145-157). -/
def effectivePullOpts (w : PullWorld) (opts0 : PullOpts) : PullOpts :=
  { opts0 with
    arch := if opts0.arch = "" then w.sysArch else opts0.arch,
    os := if opts0.os = "" then w.sysOS else opts0.os,
    variant := if opts0.variant = "" then w.sysVariant else opts0.variant }

/-- The `ref.Transport().Name()` string dispatch of `Runtime.Pull`
(pull.go lines 161-174). -/
def pullTransportDispatch (w : PullWorld) (possiblyUnqualifiedName : String)
    (ref : PullRef) (pol : PullPolicy) (opts : PullOpts) :
    Except GoErr (List String) × List Eff :=
  if ref.transport = "docker" then
    copyFromRegistry w ref possiblyUnqualifiedName pol opts
  else if ref.transport = "docker-archive" then
    w.copyFromDockerArchive ref
  else
    w.copyFromDefault ref

/-- Embedding of the tail of `Runtime.Pull` (pull.go lines 141-213): the
all-tags transport restriction, defaulting the platform fields from the
system context, the per-transport copy, and the final
lookup/platform/event loop.  `possiblyUnqualifiedName` is the
short-name-resolution input computed by the parse phase, `name0` the
caller's original input (used in events and platform error messages). -/
def pullWithRef (w : PullWorld) (name0 possiblyUnqualifiedName : String)
    (ref : PullRef) (pol : PullPolicy) (opts0 : PullOpts) :
    Except GoErr (List String) × List Eff :=
  if opts0.allTags = true ∧ ref.transport ≠ "docker" then
    (.error (.msg ("pulling all tags is not supported for " ++ ref.transport
      ++ " transport")), [])
  else
    match pullTransportDispatch w possiblyUnqualifiedName ref pol
      (effectivePullOpts w opts0) with
    | (.error e, tr) => (.error e, tr)
    | (.ok pulledNames, tr) =>
      let (res, tr2) := pullFinish w name0 pulledNames
      (res, tr ++ tr2)

/-- Embedding of the unparsable-name branch of `Runtime.Pull` (pull.go
lines 99-128): ID-shaped names are looked up locally (policy Always fails
first); other names are stripped of a tag-and-digest combination and
re-parsed with an implicit `docker://` transport, keeping the original
parse error if that fails too. -/
def pullUnparsedName (w : PullWorld) (name0 : String) (pol : PullPolicy)
    (opts0 : PullOpts) (origErr : GoErr) :
    Except GoErr (List String) × List Eff :=
  if looksLikeLocalID name0 then
    if pol = .always then
      (.error (.msg ("pull policy is always but image has been referred to by ID ("
        ++ name0 ++ ")")), [])
    else
      match w.lookupImage name0 noLookupOpts with
      | .error e => (.error e, [.lookup name0])
      | .ok (img, _) => (.ok [img.id], [.lookup name0])
  else
    match w.normalizeTaggedDigested name0 with
    | .error e =>
      (.error (.wrap ("parsing reference " ++ name0) e), [])
    | .ok name1 =>
      match w.parseImageName ("docker://" ++ name1) with
      | .error _ => (.error origErr, [])
      | .ok dockerRef => pullWithRef w name0 name1 dockerRef pol opts0

/-- Embedding of `Runtime.Pull` (pull.go) up to, but not including, the
deferred pull-error event (see `pull`).  The retry-configuration setup of
lines 69-84 is abstracted into `setupErr`. -/
def pullCore (w : PullWorld) (name0 : String) (pol : PullPolicy)
    (opts0 : PullOpts) : Except GoErr (List String) × List Eff :=
  match w.setupErr with
  | some e => (.error e, [])
  | none =>
    match w.parseImageName name0 with
    | .error origErr =>
      match w.transportFromImageName name0 with
      | some t =>
        if t ≠ "docker" then (.error origErr, [])
        else pullUnparsedName w name0 pol opts0 origErr
      | none => pullUnparsedName w name0 pol opts0 origErr
    | .ok ref =>
      if ref.transport = "docker" then
        match ref.dockerRef with
        | none => (.error (.msg "internal error: unexpected nil reference"), [])
        | some n => pullWithRef w name0 (nameStr n) ref pol opts0
      else pullWithRef w name0 "" ref pol opts0

/-- Embedding of `Runtime.Pull` (pull.go) including the deferred
pull-error event: when an event channel is configured and the pull fails,
one `imagePullError` event carrying the input name is written. -/
def pull (w : PullWorld) (name0 : String) (pol : PullPolicy)
    (opts0 : PullOpts) : Except GoErr (List String) × List Eff :=
  match pullCore w name0 pol opts0 with
  | (.error e, tr) =>
    (.error e, tr ++ (if w.eventChannelPresent then
      [.event ⟨"", name0, .imagePullError, some e⟩]
      else []))
  | (.ok ids, tr) => (.ok ids, tr)

/-- Oracle world for the archive-save path (`save.go`): the external
collaborators (name normalization, the local image store, containers/image
reference parsing, the two archive writers, the copier) modelled as
functions, plus the optional event sink. -/
structure SaveWorld where
  normalizeName : String → Except GoErr NamedRef
  lookupImage : String → Except GoErr (Image × String)
  parseNamed : String → Option NamedRef
  eventChannelPresent : Bool
  dockerWriterErr : Option GoErr
  dockerWriterCloseErr : Option GoErr
  ociWriterErr : Option GoErr
  ociWriterCloseErr : Option GoErr
  newCopierErr : Option GoErr
  dockerNewReferenceErr : Option GoErr
  ociNewReference : String → Option GoErr
  storageReference : String → Option GoErr
  dockerCopy : String → Option GoErr
  ociCopy : String → String → Option GoErr

/-- Embedding of the `localImage` struct of save.go: the image (kept as
its ID), the accumulated tags, and the accumulated destination names. -/
structure localImage where
  imageId : String
  tags : List NamedRef
  destNames : List String
deriving DecidableEq

/-- Lookup in the `localImages` map (modelled as an association list). -/
def lookupEntry : List (String × localImage) → String → Option localImage
  | [], _ => none
  | (k, v) :: rest, id => if k = id then some v else lookupEntry rest id

/-- Update-or-append in the `localImages` map. -/
def setEntry : List (String × localImage) → String → localImage →
    List (String × localImage)
  | [], id, v => [(id, v)]
  | (k, v0) :: rest, id, v =>
    if k = id then (id, v) :: rest else (k, v0) :: setEntry rest id v

/-- Embedding of the additional-tags normalization loop at the top of
`saveArchive` (save.go lines 141-151): entries whose normalization fails
are skipped without an error; an entry that normalizes to an untagged
reference aborts with a hard error; tagged normalizations are collected in
order. -/
def processAdditionalTags (normalizeName : String → Except GoErr NamedRef) :
    List String → Except GoErr (List NamedRef)
  | [] => .ok []
  | t :: ts =>
    match normalizeName t with
    | .error _ => processAdditionalTags normalizeName ts
    | .ok named =>
      if isNamedTagged named then
        match processAdditionalTags normalizeName ts with
        | .error e => .error e
        | .ok l => .ok (named :: l)
      else
        .error (.msg ("invalid additional tag " ++ t
          ++ ": normalized to untagged " ++ nameStr named))

/-- Outcome of the name-assembly loop of `saveArchive`: the ordered ID
list plus the `localImages` map, an error, or a Go runtime panic (the
`tagged.String()` call on a failed `reference.NamedTagged` type assertion
dereferences a nil interface when the resolved name parses as named but
carries no tag). -/
inductive SaveAsmOut where
  | done : List String → List (String × localImage) → SaveAsmOut
  | err : GoErr → SaveAsmOut
  | panicked : SaveAsmOut

/-- A save event as registered by `saveArchive`'s per-name `defer`. -/
def mkSaveEvent (id path : String) : EventData :=
  ⟨id, path, .imageSave, none⟩

/-- Embedding of the `for _, name := range names` assembly loop of
`saveArchive` (save.go lines 156-189).  `evs` accumulates the deferred
save events in registration order; deferred events also run on error
returns and while panicking, so they are returned on every exit. -/
def saveAssemble (w : SaveWorld) (path : String)
    (additionalTags : List NamedRef) :
    List String → List String → List String →
    List (String × localImage) → List EventData → SaveAsmOut × List EventData
  | [], _, orderedIDs, entries, evs => (.done orderedIDs entries, evs)
  | name :: rest, visited, orderedIDs, entries, evs =>
    match w.lookupImage name with
    | .error e => (.err e, evs)
    | .ok (img, imageName) =>
      if visited.contains imageName then
        saveAssemble w path additionalTags rest visited orderedIDs entries evs
      else
        let visited2 := imageName :: visited
        let entry0 : localImage × List String :=
          match lookupEntry entries img.id with
          | some l => (l, orderedIDs)
          | none =>
            ({ imageId := img.id, tags := additionalTags, destNames := [] },
              orderedIDs ++ [img.id])
        match w.parseNamed imageName with
        | none =>
          let entries2 := setEntry entries img.id entry0.1
          let evs2 := if w.eventChannelPresent then
              evs ++ [mkSaveEvent img.id path]
            else evs
          saveAssemble w path additionalTags rest visited2 entry0.2 entries2
            evs2
        | some named =>
          if isNamedTagged named then
            let entry1 : localImage :=
              ⟨entry0.1.imageId, entry0.1.tags ++ [named],
                entry0.1.destNames ++ [nameStr named]⟩
            let entries2 := setEntry entries img.id entry1
            let evs2 := if w.eventChannelPresent then
                evs ++ [mkSaveEvent img.id path]
              else evs
            saveAssemble w path additionalTags rest visited2 entry0.2 entries2
              evs2
          else
            -- save.go line 183: `tagged.String()` with `tagged = nil`
            (.panicked, evs)

/-- One image entry of a produced docker archive: the repository tags
attached to it (via `dockerArchiveAdditionalTags`). -/
structure DockerEntry where
  tags : List NamedRef
deriving DecidableEq

/-- One image entry of a produced OCI archive: its destination name. -/
structure OCIEntry where
  destName : String
deriving DecidableEq

/-- Chaining of the deferred writer-close error in `saveDockerArchive`
(save.go lines 214-224): a close error replaces a nil result error (and
returns early) and is otherwise wrapped around the earlier failure. -/
def chainClose {α : Type} (res : Except GoErr α) (closeErr : Option GoErr) :
    Except GoErr α :=
  match closeErr with
  | none => res
  | some ce =>
    match res with
    | .ok _ => .error ce
    | .error fe => .error (.wrap ce.render fe)

/-- Chaining of the deferred writer-close error in `saveOCIArchive`
(save.go lines 263-272): unlike the docker-archive handler this one has
no early `return` after `finalErr = err`, so when the loop succeeded the
close error ends up wrapped around itself. -/
def chainCloseOCI {α : Type} (res : Except GoErr α)
    (closeErr : Option GoErr) : Except GoErr α :=
  match closeErr with
  | none => res
  | some ce =>
    match res with
    | .ok _ => .error (.wrap ce.render ce)
    | .error fe => .error (.wrap ce.render fe)

/-- Embedding of the per-image loop of `saveDockerArchive` (save.go):
each ordered ID yields one archive entry carrying the entry's full tag
list, written by a single copy from the store. -/
def saveDockerArchiveLoop (w : SaveWorld)
    (entries : List (String × localImage)) :
    List String → Except GoErr (List DockerEntry)
  | [] => .ok []
  | id :: rest =>
    match lookupEntry entries id with
    | none =>
      .error (.msg ("internal error: saveDockerArchive: ID " ++ id
        ++ " not found in local map"))
    | some entry =>
      match w.newCopierErr with
      | some e => .error e
      | none =>
        match w.dockerNewReferenceErr with
        | some e => .error e
        | none =>
          match w.storageReference entry.imageId with
          | some e => .error e
          | none =>
            match w.dockerCopy entry.imageId with
            | some e => .error e
            | none =>
              match saveDockerArchiveLoop w entries rest with
              | .error e => .error e
              | .ok l => .ok ({ tags := entry.tags } :: l)

/-- Embedding of `saveDockerArchive` (save.go) including writer opening
and deferred close-error chaining. -/
def saveDockerArchive (w : SaveWorld) (orderedIDs : List String)
    (entries : List (String × localImage)) :
    Except GoErr (List DockerEntry) :=
  match w.dockerWriterErr with
  | some e => .error e
  | none =>
    chainClose (saveDockerArchiveLoop w entries orderedIDs)
      w.dockerWriterCloseErr

/-- Embedding of the inner `for _, destName := range local.destNames` loop
of `saveOCIArchive` (save.go): one archive entry and one copy per
recorded destination name. -/
def saveOCIEntryLoop (w : SaveWorld) (imageId : String) :
    List String → Except GoErr (List OCIEntry)
  | [] => .ok []
  | dn :: rest =>
    match w.ociNewReference dn with
    | some e => .error e
    | none =>
      match w.storageReference imageId with
      | some e => .error e
      | none =>
        match w.ociCopy imageId dn with
        | some e => .error e
        | none =>
          match saveOCIEntryLoop w imageId rest with
          | .error e => .error e
          | .ok l => .ok ({ destName := dn } :: l)

/-- Embedding of the per-image loop of `saveOCIArchive` (save.go). -/
def saveOCIArchiveLoop (w : SaveWorld)
    (entries : List (String × localImage)) :
    List String → Except GoErr (List OCIEntry)
  | [] => .ok []
  | id :: rest =>
    match lookupEntry entries id with
    | none =>
      .error (.msg ("internal error: saveOCIArchive: ID " ++ id
        ++ " not found in local map"))
    | some entry =>
      match w.newCopierErr with
      | some e => .error e
      | none =>
        match saveOCIEntryLoop w entry.imageId entry.destNames with
        | .error e => .error e
        | .ok l1 =>
          match saveOCIArchiveLoop w entries rest with
          | .error e => .error e
          | .ok l2 => .ok (l1 ++ l2)

/-- Embedding of `saveOCIArchive` (save.go) including writer opening and
deferred close-error chaining. -/
def saveOCIArchive (w : SaveWorld) (orderedIDs : List String)
    (entries : List (String × localImage)) :
    Except GoErr (List OCIEntry) :=
  match w.ociWriterErr with
  | some e => .error e
  | none =>
    chainCloseOCI (saveOCIArchiveLoop w entries orderedIDs)
      w.ociWriterCloseErr

/-- Result of a `saveArchive` run: the produced archive entries (per
format), a returned error, or a Go panic. -/
inductive SaveRes where
  | dockerOut : List DockerEntry → SaveRes
  | ociOut : List OCIEntry → SaveRes
  | failed : GoErr → SaveRes
  | panicked : SaveRes

/-- Embedding of `Runtime.saveArchive` (save.go): additional-tag
normalization, the name-assembly loop, and the per-format dispatch.  The
second component is the list of emitted save events; deferred `defer`
calls run last-in-first-out at function exit (also on error returns and
panics), hence the reversal. -/
def saveArchive (w : SaveWorld) (names : List String) (format : String)
    (additionalTagsIn : List String) (path : String) :
    SaveRes × List EventData :=
  match processAdditionalTags w.normalizeName additionalTagsIn with
  | .error e => (.failed e, [])
  | .ok additionalTags =>
    match saveAssemble w path additionalTags names [] [] [] [] with
    | (.err e, evs) => (.failed e, evs.reverse)
    | (.panicked, evs) => (.panicked, evs.reverse)
    | (.done ids entries, evs) =>
      let out : SaveRes :=
        if format = "docker-archive" then
          match saveDockerArchive w ids entries with
          | .error e => .failed e
          | .ok l => .dockerOut l
        else if format = "oci-archive" then
          match saveOCIArchive w ids entries with
          | .error e => .failed e
          | .ok l => .ociOut l
        else
          .failed (.msg ("internal error: cannot save multiple images to format "
            ++ format))
      (out, evs.reverse)

/-- A pull world with inert defaults: parsing fails, the store is empty,
no transport succeeds.  Concrete scenarios override single fields. -/
def pwBase : PullWorld where
  runtimeGOARCH := "amd64"
  runtimeGOOS := "linux"
  sysArch := ""
  sysOS := ""
  sysVariant := ""
  eventChannelPresent := false
  setupErr := none
  parseImageName := fun _ => .error (.msg "invalid image name")
  transportFromImageName := fun _ => none
  normalizeTaggedDigested := fun s => .ok s
  lookupImage := fun s _ => .error (.wrap s .imageUnknown)
  matchesPlatform := fun _ => .ok none
  resolveShortNames := fun _ => .error (.msg "short-name resolution failed")
  newCopierErr := none
  newRegistryReference := fun _ => none
  hasDifferentDigest := fun _ _ => .ok true
  parseStoreReference := fun _ => none
  writerWrite := fun _ => none
  copy := fun _ => .error (.msg "transport unavailable")
  manifestDigest := fun _ => .ok "sha256:m"
  withDigest := fun n d => .ok ⟨n.repo, none, some d⟩
  newStoreReference := fun _ => .ok ()
  resolveStoreReference := fun _ => .ok ⟨"id0", false⟩
  getRepositoryTags := fun _ => .error (.msg "no tags")
  withTag := fun n t => .ok ⟨n.repo, some t, none⟩
  ctxDone := fun _ => false
  copyFromDockerArchive := fun _ => (.error (.msg "unused"), [])
  copyFromDefault := fun _ => (.error (.msg "unused"), [])

/-- Pull options with nothing requested. -/
def pullOpts0 : PullOpts := ⟨false, "", "", "", false⟩

/-- Pull options requesting all tags. -/
def allTagsOpts : PullOpts := ⟨true, "", "", "", false⟩

/-- C10: with allTags requested and a successfully parsed reference whose
transport is not the docker registry transport, Pull fails with the
"pulling all tags is not supported" error before any local-store lookup,
candidate resolution, or transport copy is attempted (the trace contains
no store, resolver or transport effect). -/
theorem c10_all_tags_non_docker_fails_early
    (w : PullWorld) (name0 : String) (pol : PullPolicy) (opts : PullOpts)
    (ref : PullRef)
    (hsetup : w.setupErr = none)
    (hparse : w.parseImageName name0 = .ok ref)
    (ht : ref.transport ≠ "docker")
    (hall : opts.allTags = true) :
    (pull w name0 pol opts).1 =
      .error (.msg ("pulling all tags is not supported for " ++ ref.transport
        ++ " transport"))
    ∧ (pull w name0 pol opts).2.filter Eff.isRemoteOrStore = [] := by
  have hcore : pullCore w name0 pol opts =
      (.error (.msg ("pulling all tags is not supported for " ++ ref.transport
        ++ " transport")), []) := by
    simp only [pullCore, hsetup, hparse]
    rw [if_neg ht]
    simp only [pullWithRef]
    rw [if_pos ⟨hall, ht⟩]
  constructor
  · simp only [pull, hcore]
  · simp only [pull, hcore]
    cases hev : w.eventChannelPresent <;>
      simp [Eff.isRemoteOrStore]

/-- Closed instance of the C10 theorem at a concrete world. -/
def w10 : PullWorld :=
  { pwBase with
    parseImageName := fun s =>
      if s = "oci:/tmp/layout" then .ok ⟨"oci", none⟩
      else .error (.msg "invalid image name") }

/-- Witness for C10: the theorem applied at a concrete world and name. -/
theorem c10_witness :
    (pull w10 "oci:/tmp/layout" .missing allTagsOpts).1 =
      .error (.msg ("pulling all tags is not supported for " ++ "oci"
        ++ " transport"))
    ∧ (pull w10 "oci:/tmp/layout" .missing allTagsOpts).2.filter
        Eff.isRemoteOrStore = [] :=
  c10_all_tags_non_docker_fails_early w10 "oci:/tmp/layout" .missing
    allTagsOpts ⟨"oci", none⟩ rfl rfl (by decide) rfl

/-- C8 (amended): a name that fails transport-qualified parsing (and does
not name a non-docker transport) is treated as a local-ID lookup exactly
when it has the `sha256:` prefix or is a 64-character string containing
none of `/`, `.`, `:`, `@` — not "a 64-character hex string".  In the ID
case, policy Always fails immediately with no store or transport call at
all (regardless of any local match), any other policy looks the name up
locally; in the non-ID case the name is re-parsed as an unqualified
`docker://` registry reference and pulled through the normal path. -/
theorem c8_unparsable_name_classification
    (w : PullWorld) (name0 name1 : String) (pol : PullPolicy)
    (opts : PullOpts) (e0 : GoErr) (dref : PullRef)
    (hsetup : w.setupErr = none)
    (hparse : w.parseImageName name0 = .error e0)
    (htr : ∀ t, w.transportFromImageName name0 = some t → t = "docker") :
    (looksLikeLocalID name0 = true →
      (pol = .always →
        (pull w name0 pol opts).1 =
          .error (.msg ("pull policy is always but image has been referred to by ID ("
            ++ name0 ++ ")"))
        ∧ (pull w name0 pol opts).2.filter Eff.isRemoteOrStore = [])
      ∧ (pol ≠ .always →
        (pull w name0 pol opts).1 =
          (match w.lookupImage name0 noLookupOpts with
           | .error e => .error e
           | .ok (img, _) => .ok [img.id])
        ∧ (pull w name0 pol opts).2.filter Eff.isRemoteOrStore
            = [.lookup name0]))
    ∧ (looksLikeLocalID name0 = false →
        w.normalizeTaggedDigested name0 = .ok name1 →
        w.parseImageName ("docker://" ++ name1) = .ok dref →
        pullCore w name0 pol opts = pullWithRef w name0 name1 dref pol opts) := by
  have hcore : pullCore w name0 pol opts =
      pullUnparsedName w name0 pol opts e0 := by
    simp only [pullCore, hsetup, hparse]
    cases htf : w.transportFromImageName name0 with
    | none => rfl
    | some t =>
      have ht := htr t htf
      subst ht
      simp
  constructor
  · intro hid
    constructor
    · intro hpol
      subst hpol
      have hres : pullCore w name0 .always opts =
          (.error (.msg ("pull policy is always but image has been referred to by ID ("
            ++ name0 ++ ")")), []) := by
        rw [hcore]
        simp [pullUnparsedName, hid]
      constructor
      · simp only [pull, hres]
      · simp only [pull, hres]
        cases hev : w.eventChannelPresent <;> simp [Eff.isRemoteOrStore]
    · intro hpol
      have hres : pullCore w name0 pol opts =
          (match w.lookupImage name0 noLookupOpts with
           | .error e => (.error e, [Eff.lookup name0])
           | .ok (img, _) => (.ok [img.id], [Eff.lookup name0])) := by
        rw [hcore]
        simp only [pullUnparsedName, hid, if_pos, if_true]
        rw [if_neg hpol]
      cases hl : w.lookupImage name0 noLookupOpts with
      | error e =>
        rw [hl] at hres
        constructor
        · simp only [pull, hres, hl]
        · simp only [pull, hres]
          cases hev : w.eventChannelPresent <;> simp [Eff.isRemoteOrStore]
      | ok p =>
        rw [hl] at hres
        constructor
        · simp only [pull, hres, hl]
        · simp only [pull, hres]
          simp [Eff.isRemoteOrStore]
  · intro hid hnorm hreparse
    rw [hcore]
    simp only [pullUnparsedName, hid, hnorm, hreparse]
    simp

/-- A string of sixty-four `z` characters: accepted by the source's
local-ID classification although it is not a hexadecimal string. -/
def zName : String :=
  "zzzzzzzzzzzzzzzzzzzzzzzzzzzzzzzzzzzzzzzzzzzzzzzzzzzzzzzzzzzzzzzz"

/-- Concrete world for the C8 counterexample: the store holds an image
whose lookup by `zName` succeeds. -/
def w8 : PullWorld :=
  { pwBase with
    lookupImage := fun s _ =>
      if s = zName then .ok (⟨"zimage", false⟩, zName)
      else .error (.wrap s .imageUnknown) }

/-- Counterexample for C8 as stated: `zName` is not a 64-character hex
string and has no `sha256:` prefix, yet the code classifies it as a
local-ID lookup and Pull services it purely from the local store. -/
theorem c8_counterexample :
    looksLikeLocalID zName = true
    ∧ isHex64 zName = false
    ∧ strHasPrefix zName "sha256:" = false
    ∧ (pull w8 zName .missing pullOpts0).1 = .ok ["zimage"]
    ∧ (pull w8 zName .missing pullOpts0).2 = [.lookup zName] := by
  refine ⟨by decide, by decide, by decide, rfl, rfl⟩

/-- Concrete world for the C8 witness: nothing parses, the store is
empty. -/
def w8w : PullWorld := pwBase

/-- A string of sixty-four `a` characters: an ID-shaped image name. -/
def idName64w : String :=
  "aaaaaaaaaaaaaaaaaaaaaaaaaaaaaaaaaaaaaaaaaaaaaaaaaaaaaaaaaaaaaaaa"

/-- Witness for C8: the amended theorem applied at a 64-character
ID-shaped name under policy Always. -/
theorem c8_witness :
    (looksLikeLocalID idName64w = true →
      (PullPolicy.always = .always →
        (pull w8w idName64w .always pullOpts0).1 =
          .error (.msg ("pull policy is always but image has been referred to by ID ("
            ++ idName64w ++ ")"))
        ∧ (pull w8w idName64w .always pullOpts0).2.filter Eff.isRemoteOrStore = [])
      ∧ (PullPolicy.always ≠ .always →
        (pull w8w idName64w .always pullOpts0).1 =
          (match w8w.lookupImage idName64w noLookupOpts with
           | .error e => .error e
           | .ok (img, _) => .ok [img.id])
        ∧ (pull w8w idName64w .always pullOpts0).2.filter Eff.isRemoteOrStore
            = [.lookup idName64w]))
    ∧ (looksLikeLocalID idName64w = false →
        w8w.normalizeTaggedDigested idName64w = .ok idName64w →
        w8w.parseImageName ("docker://" ++ idName64w) = .ok ⟨"docker", none⟩ →
        pullCore w8w idName64w .always pullOpts0 =
          pullWithRef w8w idName64w idName64w ⟨"docker", none⟩ .always pullOpts0) :=
  c8_unparsable_name_classification w8w idName64w idName64w .always pullOpts0
    (.msg "invalid image name") ⟨"docker", none⟩ rfl rfl
    (fun t ht => by simp [w8w, pwBase] at ht)

/-- C2 exhibit: with policy Missing (not Never) and an ID-shaped name that
has no local match, Pull returns the local lookup's error, which wraps
`storage.ErrImageUnknown` — so the ImageUnknown kind is not returned only
in the Never-with-no-local-match case, contradicting Pull's documented
"iff" contract.  No transport copy is attempted either way. -/
theorem c2_missing_policy_id_lookup_image_unknown :
    (pull pwBase idName64w .missing pullOpts0).1 =
      .error (.wrap idName64w .imageUnknown)
    ∧ GoErr.isImageUnknown (.wrap idName64w .imageUnknown) = true
    ∧ PullPolicy.missing ≠ PullPolicy.never
    ∧ copyAttemptsOf (pull pwBase idName64w .missing pullOpts0).2 = [] := by
  refine ⟨rfl, rfl, by decide, rfl⟩

/-- C7 (amended): an additionalTags entry that normalizes to an untagged
reference causes a hard error; an entry whose normalization fails
outright is silently skipped, not an error; on success the collected list
is exactly the tagged normalizations in input order. -/
theorem c7_additional_tags_normalization
    (norm : String → Except GoErr NamedRef) :
    ∀ ts : List String,
    (∀ l, processAdditionalTags norm ts = .ok l →
      (l = ts.filterMap fun t =>
        match norm t with
        | .ok n => if isNamedTagged n then some n else none
        | .error _ => none)
      ∧ ∀ t ∈ ts, ∀ n, norm t = .ok n → isNamedTagged n = true)
    ∧ (∀ e, processAdditionalTags norm ts = .error e →
      ∃ t ∈ ts, ∃ n, norm t = .ok n ∧ isNamedTagged n = false) := by
  intro ts
  induction ts with
  | nil =>
    constructor
    · intro l hl
      simp only [processAdditionalTags] at hl
      cases hl
      simp
    · intro e he
      simp [processAdditionalTags] at he
  | cons t ts ih =>
    cases hn : norm t with
    | error e0 =>
      have hstep : processAdditionalTags norm (t :: ts) =
          processAdditionalTags norm ts := by
        simp only [processAdditionalTags, hn]
      constructor
      · intro l hl
        rw [hstep] at hl
        obtain ⟨h1, h2⟩ := ih.1 l hl
        refine ⟨?_, ?_⟩
        · rw [h1]
          simp [List.filterMap_cons, hn]
        · intro x hx n hxn
          rcases List.mem_cons.mp hx with rfl | hx2
          · rw [hn] at hxn
            cases hxn
          · exact h2 x hx2 n hxn
      · intro e he
        rw [hstep] at he
        obtain ⟨x, hx, n, hxn, htag⟩ := ih.2 e he
        exact ⟨x, List.mem_cons_of_mem _ hx, n, hxn, htag⟩
    | ok n =>
      cases htag : isNamedTagged n with
      | true =>
        have hstep : processAdditionalTags norm (t :: ts) =
            (match processAdditionalTags norm ts with
             | .error e => .error e
             | .ok l => .ok (n :: l)) := by
          simp only [processAdditionalTags, hn, htag, if_true]
        constructor
        · intro l hl
          rw [hstep] at hl
          cases hr : processAdditionalTags norm ts with
          | error e1 => rw [hr] at hl; cases hl
          | ok l1 =>
            rw [hr] at hl
            cases hl
            obtain ⟨h1, h2⟩ := ih.1 l1 hr
            refine ⟨?_, ?_⟩
            · rw [h1]
              simp [List.filterMap_cons, hn, htag]
            · intro x hx m hxm
              rcases List.mem_cons.mp hx with rfl | hx2
              · rw [hn] at hxm
                cases hxm
                exact htag
              · exact h2 x hx2 m hxm
        · intro e he
          rw [hstep] at he
          cases hr : processAdditionalTags norm ts with
          | error e1 =>
            rw [hr] at he
            cases he
            obtain ⟨x, hx, m, hxm, hm⟩ := ih.2 _ hr
            exact ⟨x, List.mem_cons_of_mem _ hx, m, hxm, hm⟩
          | ok l1 => rw [hr] at he; cases he
      | false =>
        have hstep : processAdditionalTags norm (t :: ts) =
            .error (.msg ("invalid additional tag " ++ t
              ++ ": normalized to untagged " ++ nameStr n)) := by
          simp only [processAdditionalTags, hn, htag]
          rfl
        constructor
        · intro l hl
          rw [hstep] at hl
          cases hl
        · intro e he
          exact ⟨t, List.mem_cons_self t ts, n, hn, htag⟩

/-- Normalization oracle for the C7 counterexample: every input is
malformed. -/
def badNorm7 : String → Except GoErr NamedRef :=
  fun _ => .error (.msg "invalid reference format")

/-- Counterexample for C7 as stated: a malformed additionalTags entry is
silently skipped — the loop returns success with the entry dropped,
instead of a hard InvalidInput error. -/
theorem c7_counterexample :
    processAdditionalTags badNorm7 ["!!!not-a-reference!!!"] = .ok []
    ∧ badNorm7 "!!!not-a-reference!!!" = .error (.msg "invalid reference format") :=
  ⟨rfl, rfl⟩

/-- A tagged reference used by the C7 witness. -/
def aRef7 : NamedRef := ⟨"docker.io/library/a", some "1", none⟩

/-- Normalization oracle for the C7 witness. -/
def goodNorm7 : String → Except GoErr NamedRef := fun s =>
  if s = "a:1" then .ok aRef7 else .error (.msg "invalid reference format")

/-- Witness for C7: the amended theorem applied to a singleton tagged
additional tag. -/
theorem c7_witness :
    (([aRef7] : List NamedRef) = ["a:1"].filterMap fun t =>
      match goodNorm7 t with
      | .ok n => if isNamedTagged n then some n else none
      | .error _ => none)
    ∧ ∀ t ∈ ["a:1"], ∀ n, goodNorm7 t = .ok n → isNamedTagged n = true :=
  (c7_additional_tags_normalization goodNorm7 ["a:1"]).1 [aRef7] rfl

/-- A save world with inert defaults: nothing normalizes, the store is
empty, nothing parses, all archive-side oracles succeed. -/
def swBase : SaveWorld where
  normalizeName := fun _ => .error (.msg "invalid reference format")
  lookupImage := fun s => .error (.wrap s .imageUnknown)
  parseNamed := fun _ => none
  eventChannelPresent := false
  dockerWriterErr := none
  dockerWriterCloseErr := none
  ociWriterErr := none
  ociWriterCloseErr := none
  newCopierErr := none
  dockerNewReferenceErr := none
  ociNewReference := fun _ => none
  storageReference := fun _ => none
  dockerCopy := fun _ => none
  ociCopy := fun _ _ => none

/-- C5: two distinct tagged names resolving to the same local image
accumulate exactly one `localImage` entry holding both tags in first-seen
order; docker-archive then yields one archive entry carrying both tags,
oci-archive yields two separate entries, one per recorded destination
name. -/
theorem c5_same_image_two_tags
    (w : SaveWorld) (n1 n2 r1 r2 path : String) (img : Image)
    (t1 t2 : NamedRef)
    (h1 : w.lookupImage n1 = .ok (img, r1))
    (h2 : w.lookupImage n2 = .ok (img, r2))
    (hne : r1 ≠ r2)
    (hp1 : w.parseNamed r1 = some t1) (ht1 : isNamedTagged t1 = true)
    (hp2 : w.parseNamed r2 = some t2) (ht2 : isNamedTagged t2 = true)
    (hw : w.dockerWriterErr = none) (hwc : w.dockerWriterCloseErr = none)
    (how : w.ociWriterErr = none) (howc : w.ociWriterCloseErr = none)
    (hcp : w.newCopierErr = none) (hdr : w.dockerNewReferenceErr = none)
    (hsr : w.storageReference img.id = none)
    (hdc : w.dockerCopy img.id = none)
    (ho1 : w.ociNewReference (nameStr t1) = none)
    (ho2 : w.ociNewReference (nameStr t2) = none)
    (hoc1 : w.ociCopy img.id (nameStr t1) = none)
    (hoc2 : w.ociCopy img.id (nameStr t2) = none) :
    (saveAssemble w path [] [n1, n2] [] [] [] []).1 =
      .done [img.id]
        [(img.id, ⟨img.id, [t1, t2], [nameStr t1, nameStr t2]⟩)]
    ∧ (saveArchive w [n1, n2] "docker-archive" [] path).1 =
      .dockerOut [⟨[t1, t2]⟩]
    ∧ (saveArchive w [n1, n2] "oci-archive" [] path).1 =
      .ociOut [⟨nameStr t1⟩, ⟨nameStr t2⟩] := by
  have hb : (r2 == r1) = false := beq_eq_false_iff_ne.mpr fun h => hne h.symm
  have hasm : (saveAssemble w path [] [n1, n2] [] [] [] []).1 =
      .done [img.id]
        [(img.id, ⟨img.id, [t1, t2], [nameStr t1, nameStr t2]⟩)] := by
    simp only [saveAssemble, h1, h2, hp1, hp2, ht1, ht2, lookupEntry,
      setEntry, List.contains_cons, List.contains_nil, hb, if_true,
      Bool.false_or, Bool.or_false]
    simp [lookupEntry, setEntry]
  have hentries : ∀ fmt,
      (saveArchive w [n1, n2] fmt [] path).1 =
      (if fmt = "docker-archive" then
        match saveDockerArchive w [img.id]
          [(img.id, ⟨img.id, [t1, t2], [nameStr t1, nameStr t2]⟩)] with
        | .error e => SaveRes.failed e
        | .ok l => .dockerOut l
      else if fmt = "oci-archive" then
        match saveOCIArchive w [img.id]
          [(img.id, ⟨img.id, [t1, t2], [nameStr t1, nameStr t2]⟩)] with
        | .error e => SaveRes.failed e
        | .ok l => .ociOut l
      else
        .failed (.msg ("internal error: cannot save multiple images to format "
          ++ fmt))) := by
    intro fmt
    rcases hsa : saveAssemble w path [] [n1, n2] [] [] [] [] with ⟨out, evs⟩
    have hout : out = .done [img.id]
        [(img.id, ⟨img.id, [t1, t2], [nameStr t1, nameStr t2]⟩)] := by
      have hfst := congrArg Prod.fst hsa
      rw [hasm] at hfst
      exact hfst.symm
    subst hout
    simp only [saveArchive, processAdditionalTags, hsa]
  refine ⟨hasm, ?_, ?_⟩
  · rw [hentries "docker-archive"]
    simp only [if_true, reduceIte]
    simp only [saveDockerArchive, hw, chainClose, hwc, saveDockerArchiveLoop,
      lookupEntry, if_pos, hcp, hdr, hsr, hdc]
  · rw [hentries "oci-archive"]
    norm_num
    simp only [saveOCIArchive, how, chainCloseOCI, howc, saveOCIArchiveLoop,
      lookupEntry, if_pos, hcp, saveOCIEntryLoop, ho1, ho2, hsr, hoc1, hoc2]
    simp

/-- Concrete world for the C5 witness. -/
def wc5 : SaveWorld :=
  { swBase with
    lookupImage := fun s =>
      if s = "r:v1" then .ok (⟨"I5", false⟩, "docker.io/library/r:v1")
      else if s = "r:v2" then .ok (⟨"I5", false⟩, "docker.io/library/r:v2")
      else .error (.wrap s .imageUnknown),
    parseNamed := fun s =>
      if s = "docker.io/library/r:v1" then
        some ⟨"docker.io/library/r", some "v1", none⟩
      else if s = "docker.io/library/r:v2" then
        some ⟨"docker.io/library/r", some "v2", none⟩
      else none }

/-- Witness for C5: the theorem applied at a concrete world with two
tagged names resolving to the same image. -/
theorem c5_witness :
    (saveAssemble wc5 "/tmp/o.tar" [] ["r:v1", "r:v2"] [] [] [] []).1 =
      .done ["I5"]
        [("I5", ⟨"I5", [⟨"docker.io/library/r", some "v1", none⟩,
          ⟨"docker.io/library/r", some "v2", none⟩],
          [nameStr ⟨"docker.io/library/r", some "v1", none⟩,
           nameStr ⟨"docker.io/library/r", some "v2", none⟩]⟩)]
    ∧ (saveArchive wc5 ["r:v1", "r:v2"] "docker-archive" [] "/tmp/o.tar").1 =
      .dockerOut [⟨[⟨"docker.io/library/r", some "v1", none⟩,
        ⟨"docker.io/library/r", some "v2", none⟩]⟩]
    ∧ (saveArchive wc5 ["r:v1", "r:v2"] "oci-archive" [] "/tmp/o.tar").1 =
      .ociOut [⟨nameStr ⟨"docker.io/library/r", some "v1", none⟩⟩,
        ⟨nameStr ⟨"docker.io/library/r", some "v2", none⟩⟩] :=
  c5_same_image_two_tags wc5 "r:v1" "r:v2" "docker.io/library/r:v1"
    "docker.io/library/r:v2" "/tmp/o.tar" ⟨"I5", false⟩
    ⟨"docker.io/library/r", some "v1", none⟩
    ⟨"docker.io/library/r", some "v2", none⟩
    rfl rfl (by decide) rfl rfl rfl rfl rfl rfl rfl rfl rfl rfl rfl rfl rfl
    rfl rfl rfl

/-- A digest-only resolved name for the C6 exhibit. -/
def digestName6 : String :=
  "example.com/repo@sha256:0000000000000000000000000000000000000000000000000000000000000000"

/-- Concrete world for the C6 exhibit: the store resolves `digestName6`
to itself, and it parses as a named-but-untagged (digest-only) docker
reference. -/
def w6 : SaveWorld :=
  { swBase with
    lookupImage := fun s =>
      if s = digestName6 then .ok (⟨"I6", false⟩, digestName6)
      else .error (.wrap s .imageUnknown),
    parseNamed := fun s =>
      if s = digestName6 then
        some ⟨"example.com/repo", none,
          some "sha256:0000000000000000000000000000000000000000000000000000000000000000"⟩
      else none }

/-- C6 exhibit (code bug): a resolved name that parses as named but
carries no tag (a digest-only reference) drives `saveArchive` into the
nil-interface dereference of save.go line 183 (`tagged.String()` after a
failed `NamedTagged` type assertion): the Go code panics instead of
contributing no tag and no destName. -/
theorem c6_untagged_resolved_name_panics :
    saveArchive w6 [digestName6] "docker-archive" [] "/tmp/a.tar" =
      (.panicked, [])
    ∧ w6.parseNamed digestName6 =
      some ⟨"example.com/repo", none,
        some "sha256:0000000000000000000000000000000000000000000000000000000000000000"⟩
    ∧ isNamedTagged ⟨"example.com/repo", none,
        some "sha256:0000000000000000000000000000000000000000000000000000000000000000"⟩
      = false :=
  ⟨rfl, rfl, rfl⟩

/-- The registry candidate used in the C4 scenario. -/
def c4cand : Candidate := ⟨⟨"reg.example.com/foo", some "latest", none⟩, none⟩

/-- Concrete world for C4: a local image exists for `foo`, short-name
resolution yields one candidate, and the per-candidate digest comparison
fails. -/
def w4 : PullWorld :=
  { pwBase with
    lookupImage := fun s _ =>
      if s = "foo" then .ok (⟨"idL", false⟩, "localhost/foo:latest")
      else .error (.wrap s .imageUnknown),
    resolveShortNames := fun s =>
      if s = "localhost/foo:latest" then .ok ⟨[c4cand], ""⟩
      else .error (.msg "unresolved"),
    hasDifferentDigest := fun _ _ => .error (.msg "digest check failed") }

/-- Counterexample for C4 as stated: under policy Newer with a local
match, the digest comparison fails, the waterfall continues and exhausts,
and the local image is returned — but the full effect trace contains no
log entry carrying the comparison error: the error is appended to the
candidate-error aggregate (and then dropped), not logged. -/
theorem c4_counterexample :
    copySingleImageFromRegistry w4 "foo" .newer pullOpts0 =
      (.ok "localhost/foo:latest",
        [.lookup "foo", .resolveCall "localhost/foo:latest",
         .logAttempting "reg.example.com/foo:latest",
         .digestCompare "reg.example.com/foo:latest"])
    ∧ w4.hasDifferentDigest "idL" c4cand.value = .error (.msg "digest check failed")
    ∧ ((copySingleImageFromRegistry w4 "foo" .newer pullOpts0).2.all
        fun eff => !(effMentionsErr (.msg "digest check failed") eff)) = true :=
  ⟨rfl, rfl, rfl⟩

/-- C4 (amended): a failed per-candidate digest comparison under policy
Newer with a local match is appended to the candidate-error aggregate
without any log entry, does not abort the waterfall (the step continues
to the next candidate), and is never propagated: digest comparison only
happens under Newer-with-local, where waterfall exhaustion returns the
local image name instead of the error aggregate. -/
theorem c4_digest_compare_error_soft
    (w : PullWorld) (img : Image) (opts : PullOpts) (desc : String)
    (c : Candidate) (e : GoErr) (wrote : Bool)
    (href : w.newRegistryReference c.value = none)
    (hcmp : w.hasDifferentDigest img.id c.value = .error e) :
    pullCandidateStep w .newer (some img) opts desc c wrote =
      (.next [e], [.logAttempting (nameStr c.value),
        .digestCompare (nameStr c.value)], wrote)
    ∧ (∀ eff ∈ [Eff.logAttempting (nameStr c.value),
        Eff.digestCompare (nameStr c.value)], effMentionsErr e eff = false)
    ∧ (∀ rn errs, copySingleFinish .newer (some img) rn (.exhausted errs)
        = .ok rn) := by
  refine ⟨?_, ?_, ?_⟩
  · simp only [pullCandidateStep, href, hcmp]
  · intro eff heff
    rcases List.mem_cons.mp heff with rfl | heff2
    · rfl
    · rcases List.mem_cons.mp heff2 with rfl | h3
      · rfl
      · cases h3
  · intro rn errs
    simp [copySingleFinish]

/-- Witness for C4: the amended theorem applied at the concrete C4
world. -/
theorem c4_witness :
    pullCandidateStep w4 .newer (some ⟨"idL", false⟩) pullOpts0 "" c4cand
        false =
      (.next [.msg "digest check failed"],
        [.logAttempting (nameStr c4cand.value),
         .digestCompare (nameStr c4cand.value)], false)
    ∧ (∀ eff ∈ [Eff.logAttempting (nameStr c4cand.value),
        Eff.digestCompare (nameStr c4cand.value)],
        effMentionsErr (.msg "digest check failed") eff = false)
    ∧ (∀ rn errs, copySingleFinish .newer (some ⟨"idL", false⟩) rn
        (.exhausted errs) = .ok rn) :=
  c4_digest_compare_error_soft w4 ⟨"idL", false⟩ pullOpts0 "" c4cand
    (.msg "digest check failed") false rfl rfl

/-- `recordsOf` distributes over trace concatenation. -/
@[simp] theorem recordsOf_append (a b : List Eff) :
    recordsOf (a ++ b) = recordsOf a ++ recordsOf b :=
  List.filterMap_append a b _

/-- `copyAttemptsOf` distributes over trace concatenation. -/
@[simp] theorem copyAttemptsOf_append (a b : List Eff) :
    copyAttemptsOf (a ++ b) = copyAttemptsOf a ++ copyAttemptsOf b :=
  List.filterMap_append a b _

@[simp] theorem recordsOf_nil : recordsOf [] = [] := rfl

@[simp] theorem copyAttemptsOf_nil : copyAttemptsOf [] = [] := rfl

@[simp] theorem recordsOf_record (s : String) (tr : List Eff) :
    recordsOf (Eff.record s :: tr) = s :: recordsOf tr := rfl

@[simp] theorem recordsOf_copyAttempt (s : String) (tr : List Eff) :
    recordsOf (Eff.copyAttempt s :: tr) = recordsOf tr := rfl

@[simp] theorem recordsOf_writeOut (s : String) (tr : List Eff) :
    recordsOf (Eff.writeOut s :: tr) = recordsOf tr := rfl

@[simp] theorem recordsOf_logAttempting (s : String) (tr : List Eff) :
    recordsOf (Eff.logAttempting s :: tr) = recordsOf tr := rfl

@[simp] theorem recordsOf_logSkipNotNewer (s : String) (tr : List Eff) :
    recordsOf (Eff.logSkipNotNewer s :: tr) = recordsOf tr := rfl

@[simp] theorem recordsOf_logErrorPulling (s : String) (e : GoErr)
    (tr : List Eff) :
    recordsOf (Eff.logErrorPulling s e :: tr) = recordsOf tr := rfl

@[simp] theorem recordsOf_logRecordErr (s : String) (e : GoErr)
    (tr : List Eff) :
    recordsOf (Eff.logRecordErr s e :: tr) = recordsOf tr := rfl

@[simp] theorem recordsOf_logPulled (s : String) (tr : List Eff) :
    recordsOf (Eff.logPulled s :: tr) = recordsOf tr := rfl

@[simp] theorem recordsOf_digestCompare (s : String) (tr : List Eff) :
    recordsOf (Eff.digestCompare s :: tr) = recordsOf tr := rfl

@[simp] theorem copyAttemptsOf_copyAttempt (s : String) (tr : List Eff) :
    copyAttemptsOf (Eff.copyAttempt s :: tr) = s :: copyAttemptsOf tr := rfl

@[simp] theorem copyAttemptsOf_record (s : String) (tr : List Eff) :
    copyAttemptsOf (Eff.record s :: tr) = copyAttemptsOf tr := rfl

@[simp] theorem copyAttemptsOf_writeOut (s : String) (tr : List Eff) :
    copyAttemptsOf (Eff.writeOut s :: tr) = copyAttemptsOf tr := rfl

@[simp] theorem copyAttemptsOf_logAttempting (s : String) (tr : List Eff) :
    copyAttemptsOf (Eff.logAttempting s :: tr) = copyAttemptsOf tr := rfl

@[simp] theorem copyAttemptsOf_logSkipNotNewer (s : String) (tr : List Eff) :
    copyAttemptsOf (Eff.logSkipNotNewer s :: tr) = copyAttemptsOf tr := rfl

@[simp] theorem copyAttemptsOf_logErrorPulling (s : String) (e : GoErr)
    (tr : List Eff) :
    copyAttemptsOf (Eff.logErrorPulling s e :: tr) = copyAttemptsOf tr := rfl

@[simp] theorem copyAttemptsOf_logRecordErr (s : String) (e : GoErr)
    (tr : List Eff) :
    copyAttemptsOf (Eff.logRecordErr s e :: tr) = copyAttemptsOf tr := rfl

@[simp] theorem copyAttemptsOf_logPulled (s : String) (tr : List Eff) :
    copyAttemptsOf (Eff.logPulled s :: tr) = copyAttemptsOf tr := rfl

@[simp] theorem copyAttemptsOf_digestCompare (s : String) (tr : List Eff) :
    copyAttemptsOf (Eff.digestCompare s :: tr) = copyAttemptsOf tr := rfl

@[simp] theorem eventsOf_nil : eventsOf [] = [] := rfl

/-- `eventsOf` distributes over trace concatenation. -/
@[simp] theorem eventsOf_append (a b : List Eff) :
    eventsOf (a ++ b) = eventsOf a ++ eventsOf b :=
  List.filterMap_append a b _

@[simp] theorem eventsOf_event (d : EventData) (tr : List Eff) :
    eventsOf (Eff.event d :: tr) = d :: eventsOf tr := rfl

@[simp] theorem eventsOf_lookup (s : String) (tr : List Eff) :
    eventsOf (Eff.lookup s :: tr) = eventsOf tr := rfl

@[simp] theorem eventsOf_logLookupErr (e : GoErr) (tr : List Eff) :
    eventsOf (Eff.logLookupErr e :: tr) = eventsOf tr := rfl

@[simp] theorem eventsOf_logCorrupted (s : String) (tr : List Eff) :
    eventsOf (Eff.logCorrupted s :: tr) = eventsOf tr := rfl

@[simp] theorem eventsOf_resolveCall (s : String) (tr : List Eff) :
    eventsOf (Eff.resolveCall s :: tr) = eventsOf tr := rfl

@[simp] theorem eventsOf_getTags (s : String) (tr : List Eff) :
    eventsOf (Eff.getTags s :: tr) = eventsOf tr := rfl

@[simp] theorem eventsOf_logAttempting (s : String) (tr : List Eff) :
    eventsOf (Eff.logAttempting s :: tr) = eventsOf tr := rfl

@[simp] theorem eventsOf_logSkipNotNewer (s : String) (tr : List Eff) :
    eventsOf (Eff.logSkipNotNewer s :: tr) = eventsOf tr := rfl

@[simp] theorem eventsOf_logErrorPulling (s : String) (e : GoErr)
    (tr : List Eff) :
    eventsOf (Eff.logErrorPulling s e :: tr) = eventsOf tr := rfl

@[simp] theorem eventsOf_logRecordErr (s : String) (e : GoErr)
    (tr : List Eff) :
    eventsOf (Eff.logRecordErr s e :: tr) = eventsOf tr := rfl

@[simp] theorem eventsOf_logPulled (s : String) (tr : List Eff) :
    eventsOf (Eff.logPulled s :: tr) = eventsOf tr := rfl

@[simp] theorem eventsOf_digestCompare (s : String) (tr : List Eff) :
    eventsOf (Eff.digestCompare s :: tr) = eventsOf tr := rfl

@[simp] theorem eventsOf_copyAttempt (s : String) (tr : List Eff) :
    eventsOf (Eff.copyAttempt s :: tr) = eventsOf tr := rfl

@[simp] theorem eventsOf_record (s : String) (tr : List Eff) :
    eventsOf (Eff.record s :: tr) = eventsOf tr := rfl

@[simp] theorem eventsOf_writeOut (s : String) (tr : List Eff) :
    eventsOf (Eff.writeOut s :: tr) = eventsOf tr := rfl

@[simp] theorem eventsOf_warnPlatform (e : GoErr) (tr : List Eff) :
    eventsOf (Eff.warnPlatform e :: tr) = eventsOf tr := rfl

/-- The write traces of the `writeDesc` closure contain no recording and
no copy attempt. -/
theorem writeDescOutcome_trace (w : PullWorld) (opts : PullOpts)
    (desc : String) (wrote : Bool) :
    recordsOf (writeDescOutcome w opts desc wrote).2 = []
    ∧ copyAttemptsOf (writeDescOutcome w opts desc wrote).2 = [] := by
  unfold writeDescOutcome
  split_ifs <;> exact ⟨rfl, rfl⟩

/-- The "Trying to pull" write trace contains no recording and no copy
attempt. -/
theorem tryingOutcome_trace (w : PullWorld) (opts : PullOpts) (cs : String) :
    recordsOf (tryingOutcome w opts cs).2 = []
    ∧ copyAttemptsOf (tryingOutcome w opts cs).2 = [] := by
  unfold tryingOutcome
  split_ifs <;> exact ⟨rfl, rfl⟩

/-- Trace discipline of the copy phase of one waterfall iteration: all
copy attempts concern this candidate; an iteration that continues to the
next candidate recorded nothing; a successful iteration recorded exactly
this candidate. -/
theorem copyPhase_trace (w : PullWorld) (opts : PullOpts) (desc : String)
    (c : Candidate) (wrote : Bool) (out : StepOut) (tr : List Eff)
    (b2 : Bool)
    (h : pullCandidateCopyPhase w opts desc c wrote = (out, tr, b2)) :
    copyAttemptsOf tr ⊆ [nameStr c.value]
    ∧ (∀ errs, out = .next errs → recordsOf tr = [])
    ∧ (∀ id, out = .success id → recordsOf tr = [nameStr c.value]) := by
  obtain ⟨hdr, hdc⟩ := writeDescOutcome_trace w opts desc wrote
  obtain ⟨htr2, htc⟩ := tryingOutcome_trace w opts (nameStr c.value)
  simp only [pullCandidateCopyPhase] at h
  split at h
  · have hout : StepOut.abort _ = out := congrArg (fun p => p.1) h
    have htr : ([] : List Eff) = tr := congrArg (fun p => p.2.1) h
    refine ⟨by simp [← htr], ?_, ?_⟩
    · intro errs he; rw [← hout] at he; cases he
    · intro id he; rw [← hout] at he; cases he
  · split at h
    · have hout : StepOut.abort _ = out := congrArg (fun p => p.1) h
      have htr : (writeDescOutcome w opts desc wrote).2 = tr :=
        congrArg (fun p => p.2.1) h
      refine ⟨by simp [← htr, hdc], ?_, ?_⟩
      · intro errs he; rw [← hout] at he; cases he
      · intro id he; rw [← hout] at he; cases he
    · split at h
      · have hout : StepOut.abort _ = out := congrArg (fun p => p.1) h
        have htr : (writeDescOutcome w opts desc wrote).2
            ++ (tryingOutcome w opts (nameStr c.value)).2 = tr :=
          congrArg (fun p => p.2.1) h
        refine ⟨by simp [← htr, hdc, htc], ?_, ?_⟩
        · intro errs he; rw [← hout] at he; cases he
        · intro id he; rw [← hout] at he; cases he
      · split at h
        · rename_i e hcp
          have hout : StepOut.next [e] = out := congrArg (fun p => p.1) h
          have htr : ((writeDescOutcome w opts desc wrote).2
              ++ (tryingOutcome w opts (nameStr c.value)).2
              ++ [Eff.copyAttempt (nameStr c.value)])
              ++ [Eff.logErrorPulling (nameStr c.value) e] = tr :=
            congrArg (fun p => p.2.1) h
          refine ⟨by simp [← htr, hdc, htc], ?_, ?_⟩
          · intro errs he
            simp [← htr, hdr, htr2]
          · intro id he; rw [← hout] at he; cases he
        · split at h
          · have hout : StepOut.abort _ = out := congrArg (fun p => p.1) h
            have htr : ((writeDescOutcome w opts desc wrote).2
                ++ (tryingOutcome w opts (nameStr c.value)).2
                ++ [Eff.copyAttempt (nameStr c.value)])
                ++ (Eff.record (nameStr c.value) ::
                  (match c.recordErr with
                   | some e2 => [Eff.logRecordErr (nameStr c.value) e2]
                   | none => []))
                ++ [Eff.logPulled (nameStr c.value)] = tr :=
              congrArg (fun p => p.2.1) h
            refine ⟨?_, ?_, ?_⟩
            · rw [← htr]
              cases hre : c.recordErr <;> simp [hdc, htc]
            · intro errs he; rw [← hout] at he; cases he
            · intro id he; rw [← hout] at he; cases he
          · rename_i idv hid
            have hout : StepOut.success idv = out := congrArg (fun p => p.1) h
            have htr : ((writeDescOutcome w opts desc wrote).2
                ++ (tryingOutcome w opts (nameStr c.value)).2
                ++ [Eff.copyAttempt (nameStr c.value)])
                ++ (Eff.record (nameStr c.value) ::
                  (match c.recordErr with
                   | some e2 => [Eff.logRecordErr (nameStr c.value) e2]
                   | none => []))
                ++ [Eff.logPulled (nameStr c.value)] = tr :=
              congrArg (fun p => p.2.1) h
            refine ⟨?_, ?_, ?_⟩
            · rw [← htr]
              cases hre : c.recordErr <;> simp [hdc, htc]
            · intro errs he; rw [← hout] at he; cases he
            · intro id he
              rw [← htr]
              cases hre : c.recordErr <;> simp [hdr, htr2]

/-- Trace discipline of one full waterfall iteration: all copy attempts
concern this candidate; a continuing iteration recorded nothing; a
successful iteration recorded exactly this candidate. -/
theorem pullCandidateStep_trace (w : PullWorld) (pol : PullPolicy)
    (li : Option Image) (opts : PullOpts) (desc : String) (c : Candidate)
    (wrote : Bool) (out : StepOut) (tr : List Eff) (b2 : Bool)
    (h : pullCandidateStep w pol li opts desc c wrote = (out, tr, b2)) :
    copyAttemptsOf tr ⊆ [nameStr c.value]
    ∧ (∀ errs, out = .next errs → recordsOf tr = [])
    ∧ (∀ id, out = .success id → recordsOf tr = [nameStr c.value]) := by
  simp only [pullCandidateStep] at h
  split at h
  · have hout : StepOut.abort _ = out := congrArg (fun p => p.1) h
    have htr : [Eff.logAttempting (nameStr c.value)] = tr :=
      congrArg (fun p => p.2.1) h
    refine ⟨by simp [← htr], ?_, ?_⟩
    · intro errs he; rw [← hout] at he; cases he
    · intro id he; rw [← hout] at he; cases he
  · split at h
    · -- policy Newer with a local image: digest comparison first
      split at h
      · have hout : StepOut.next [_] = out := congrArg (fun p => p.1) h
        have htr : [Eff.logAttempting (nameStr c.value),
            Eff.digestCompare (nameStr c.value)] = tr :=
          congrArg (fun p => p.2.1) h
        refine ⟨by simp [← htr], ?_, ?_⟩
        · intro errs he; simp [← htr]
        · intro id he; rw [← hout] at he; cases he
      · have hout : StepOut.next [] = out := congrArg (fun p => p.1) h
        have htr : [Eff.logAttempting (nameStr c.value),
            Eff.digestCompare (nameStr c.value),
            Eff.logSkipNotNewer (nameStr c.value)] = tr :=
          congrArg (fun p => p.2.1) h
        refine ⟨by simp [← htr], ?_, ?_⟩
        · intro errs he; simp [← htr]
        · intro id he; rw [← hout] at he; cases he
      · rcases hph : pullCandidateCopyPhase w opts desc c wrote
          with ⟨o, t, w2⟩
        rw [hph] at h
        obtain ⟨hsub, hnext, hsucc⟩ :=
          copyPhase_trace w opts desc c wrote o t w2 hph
        have hout : o = out := congrArg (fun p => p.1) h
        have htr : [Eff.logAttempting (nameStr c.value),
            Eff.digestCompare (nameStr c.value)] ++ t = tr :=
          congrArg (fun p => p.2.1) h
        refine ⟨?_, ?_, ?_⟩
        · rw [← htr]; simpa using hsub
        · intro errs he
          rw [← hout] at he
          rw [← htr]
          simpa using hnext errs he
        · intro id he
          rw [← hout] at he
          rw [← htr]
          simpa using hsucc id he
    · rcases hph : pullCandidateCopyPhase w opts desc c wrote
        with ⟨o, t, w2⟩
      rw [hph] at h
      obtain ⟨hsub, hnext, hsucc⟩ :=
        copyPhase_trace w opts desc c wrote o t w2 hph
      have hout : o = out := congrArg (fun p => p.1) h
      have htr : Eff.logAttempting (nameStr c.value) :: t = tr :=
        congrArg (fun p => p.2.1) h
      refine ⟨?_, ?_, ?_⟩
      · rw [← htr]
        intro x hx
        exact hsub (by simpa using hx)
      · intro errs he
        rw [← hout] at he
        rw [← htr]
        simpa using hnext errs he
      · intro id he
        rw [← hout] at he
        rw [← htr]
        simpa using hsucc id he

/-- C3: in the candidate waterfall, the first candidate whose transport
copy succeeds determines the result: its derived identity is returned
immediately, later candidates are never attempted (every copy attempt in
the trace belongs to the earlier candidates or the successful one),
`record()` is invoked exactly once, for the successful candidate, and the
collected per-candidate errors never surface — the outer function maps
the waterfall's success to a plain success, dropping the aggregate. -/
theorem c3_first_success_wins (w : PullWorld) (pol : PullPolicy)
    (li : Option Image) (opts : PullOpts) (desc : String) (c : Candidate)
    (id : String) :
    ∀ (pre post : List Candidate) (wrote : Bool) (errs : List GoErr),
    (∀ x ∈ pre, ∀ b, ∃ es tr b2,
      pullCandidateStep w pol li opts desc x b = (.next es, tr, b2)) →
    (∀ b, ∃ tr b2,
      pullCandidateStep w pol li opts desc c b = (.success id, tr, b2)) →
    ∃ tr, pullCandidatesLoop w pol li opts desc (pre ++ c :: post) wrote errs
        = (.success id, tr)
      ∧ recordsOf tr = [nameStr c.value]
      ∧ copyAttemptsOf tr ⊆
        (pre.map fun x => nameStr x.value) ++ [nameStr c.value]
      ∧ ∀ rn, copySingleFinish pol li rn (.success id) = .ok id := by
  intro pre
  induction pre with
  | nil =>
    intro post wrote errs _ hc
    obtain ⟨tr, b2, hstep⟩ := hc wrote
    obtain ⟨hsub, _, hsucc⟩ :=
      pullCandidateStep_trace w pol li opts desc c wrote _ _ _ hstep
    refine ⟨tr, ?_, hsucc id rfl, by simpa using hsub, fun rn => rfl⟩
    simp only [List.nil_append, pullCandidatesLoop, hstep]
  | cons x pre ih =>
    intro post wrote errs hpre hc
    obtain ⟨es, trx, b2, hstep⟩ := hpre x (List.mem_cons_self x pre) wrote
    obtain ⟨hsubx, hnextx, _⟩ :=
      pullCandidateStep_trace w pol li opts desc x wrote _ _ _ hstep
    obtain ⟨tr2, hloop, hrec, hsub2, hfin⟩ :=
      ih post b2 (errs ++ es)
        (fun y hy b => hpre y (List.mem_cons_of_mem x hy) b) hc
    refine ⟨trx ++ tr2, ?_, ?_, ?_, hfin⟩
    · have hloop2 : pullCandidatesLoop w pol li opts desc
          (pre.append (c :: post)) b2 (errs ++ es) = (.success id, tr2) :=
        hloop
      simp only [List.cons_append, pullCandidatesLoop, hstep, hloop2]
    · simp [hnextx es rfl, hrec]
    · simp only [copyAttemptsOf_append]
      intro s hs
      rcases List.mem_append.mp hs with hs1 | hs2
      · have := hsubx hs1
        simp only [List.mem_singleton] at this
        subst this
        simp
      · have := hsub2 hs2
        simp only [List.map_cons, List.cons_append]
        simpa using Or.inr (by simpa using this)

/-- First (failing) candidate of the C3 witness scenario. -/
def cBad : Candidate := ⟨⟨"reg1.example.com/bar", some "latest", none⟩, none⟩

/-- Second (succeeding) candidate of the C3 witness scenario. -/
def cGood : Candidate := ⟨⟨"reg2.example.com/bar", some "latest", none⟩, none⟩

/-- Concrete world for the C3 witness: the first candidate's copy fails
with a transport error, the second succeeds. -/
def w3 : PullWorld :=
  { pwBase with
    resolveShortNames := fun s =>
      if s = "bar" then .ok ⟨[cBad, cGood], ""⟩
      else .error (.msg "unresolved"),
    copy := fun n =>
      if n = cGood.value then .ok "manifest-good"
      else .error (.msg "connection refused"),
    resolveStoreReference := fun _ => .ok ⟨"idGood", false⟩ }

/-- Witness for C3: the theorem applied to the waterfall
`[cBad, cGood]`. -/
theorem c3_witness :
    ∃ tr, pullCandidatesLoop w3 .missing none pullOpts0 ""
        ([cBad] ++ cGood :: []) false [] = (.success "idGood", tr)
      ∧ recordsOf tr = [nameStr cGood.value]
      ∧ copyAttemptsOf tr ⊆
        ([cBad].map fun x => nameStr x.value) ++ [nameStr cGood.value]
      ∧ ∀ rn, copySingleFinish .missing none rn (.success "idGood")
          = .ok "idGood" :=
  c3_first_success_wins w3 .missing none pullOpts0 "" cGood "idGood"
    [cBad] [] false []
    (fun x hx b => by
      have hxe : x = cBad := by simpa using hx
      subst hxe
      cases b <;> exact ⟨_, _, _, rfl⟩)
    (fun b => by cases b <;> exact ⟨_, _, rfl⟩)

/-- The reference a `docker://example.com/repo` parse yields. -/
def repoRef1 : NamedRef := ⟨"example.com/repo", some "latest", none⟩

/-- The single pull candidate for tag `a` in the C1 scenario. -/
def candA : Candidate := ⟨⟨"example.com/repo", some "a", none⟩, none⟩

/-- Concrete world for C1: an all-tags pull of `[a, b, c]` whose context
becomes done after the first iteration's poll; tag `a` pulls
successfully. -/
def w1 : PullWorld :=
  { pwBase with
    parseImageName := fun s =>
      if s = "docker://example.com/repo" then .ok ⟨"docker", some repoRef1⟩
      else .error (.msg "invalid image name"),
    getRepositoryTags := fun _ => .ok ["a", "b", "c"],
    ctxDone := fun i => decide (1 ≤ i),
    resolveShortNames := fun s =>
      if s = "example.com/repo:a" then .ok ⟨[candA], ""⟩
      else .error (.msg "unresolved"),
    copy := fun n =>
      if n = candA.value then .ok "manifest-a"
      else .error (.msg "unreachable"),
    resolveStoreReference := fun _ => .ok ⟨"ida", false⟩ }

/-- Counterexample for C1 as stated: the cancellation signal arrives after
tag `a` was pulled successfully (the trace retains its copy and its
short-name recording, and nothing removes the image from the store), yet
Pull returns the error "pulling cancelled" and no identities — the
previously collected identity is discarded from the result. -/
theorem c1_counterexample :
    (pull w1 "docker://example.com/repo" .missing allTagsOpts).1 =
      .error (.msg "pulling cancelled")
    ∧ copyAttemptsOf
        (pull w1 "docker://example.com/repo" .missing allTagsOpts).2 =
      ["example.com/repo:a"]
    ∧ recordsOf
        (pull w1 "docker://example.com/repo" .missing allTagsOpts).2 =
      ["example.com/repo:a"]
    ∧ (copySingleImageFromRegistry w1 "example.com/repo:a" .missing
        allTagsOpts).1 = .ok "ida" :=
  ⟨rfl, rfl, rfl, rfl⟩

/-- Binding a function over `range (n+1)` peels off the head index. -/
theorem rangeBindSucc {α : Type} (f : Nat → List α) (n : Nat) :
    (List.range (n + 1)).flatMap f =
      f 0 ++ (List.range n).flatMap fun j => f (j + 1) := by
  induction n with
  | zero => simp [List.range_succ]
  | succ n ih =>
    rw [List.range_succ, List.flatMap_append, ih, List.range_succ]
    simp [List.append_assoc]

/-- C1 (amended): when the context cancellation is observed at the poll
before some remaining tag, after a prefix of tags that all pulled
successfully, the all-tags loop returns the error "pulling cancelled":
the identities collected in the prior iterations are discarded from the
result, while the trace is exactly the concatenation of the prior
iterations' traces — their copies happened and nothing rolls them
back. -/
theorem c1_all_tags_cancellation (w : PullWorld) (pol : PullPolicy)
    (opts : PullOpts) (named : NamedRef) (taggedOf : Nat → NamedRef)
    (idOf : Nat → String) (trOf : Nat → List Eff) :
    ∀ (pre post : List String) (k : Nat),
    (∀ j, j < pre.length → w.ctxDone (k + j) = false) →
    w.ctxDone (k + pre.length) = true →
    (∀ j (hj : j < pre.length),
      w.withTag named (pre.get ⟨j, hj⟩) = .ok (taggedOf (k + j))) →
    (∀ j, j < pre.length →
      copySingleImageFromRegistry w (nameStr (taggedOf (k + j))) pol opts =
        (.ok (idOf (k + j)), trOf (k + j))) →
    post ≠ [] →
    allTagsLoop w pol opts named (pre ++ post) k =
      (.error (.msg "pulling cancelled"),
        (List.range pre.length).flatMap fun j => trOf (k + j)) := by
  intro pre
  induction pre with
  | nil =>
    intro post k h0 hdone h3 h4 hpost
    cases post with
    | nil => exact absurd rfl hpost
    | cons t rest =>
      have hd : w.ctxDone k = true := by simpa using hdone
      simp [allTagsLoop, hd]
  | cons t pre ih =>
    intro post k h0 hdone h3 h4 hpost
    have hc0 : w.ctxDone k = false := by simpa using h0 0 (by simp)
    have ht0 : w.withTag named t = .ok (taggedOf k) := by
      simpa using h3 0 (by simp)
    have hcs : copySingleImageFromRegistry w (nameStr (taggedOf k)) pol
        opts = (.ok (idOf k), trOf k) := by
      simpa using h4 0 (by simp)
    have hrec := ih post (k + 1)
      (fun j hj => by
        have heq : k + 1 + j = k + (j + 1) := by omega
        rw [heq]
        exact h0 (j + 1) (by simpa using Nat.succ_lt_succ hj))
      (by
        have heq : k + 1 + pre.length = k + (t :: pre).length := by
          simp; omega
        rw [heq]
        exact hdone)
      (fun j hj => by
        have heq : k + 1 + j = k + (j + 1) := by omega
        rw [heq]
        exact h3 (j + 1) (by simpa using Nat.succ_lt_succ hj))
      (fun j hj => by
        have heq : k + 1 + j = k + (j + 1) := by omega
        rw [heq]
        exact h4 (j + 1) (by simpa using Nat.succ_lt_succ hj))
      hpost
    have hrec2 : allTagsLoop w pol opts named (pre.append post) (k + 1) =
        (.error (.msg "pulling cancelled"),
          (List.range pre.length).flatMap fun j => trOf (k + 1 + j)) := hrec
    simp only [List.cons_append, allTagsLoop, hc0, Bool.false_eq_true,
      if_false, ht0, hcs, hrec2]
    simp only [List.length_cons]
    rw [rangeBindSucc]
    have h1 : trOf (k + 0) = trOf k := by rw [Nat.add_zero]
    have h2 : ((List.range pre.length).flatMap fun j => trOf (k + (j + 1)))
        = (List.range pre.length).flatMap fun j => trOf (k + 1 + j) := by
      congr 1
      funext j
      congr 1
      omega
    rw [h1, h2]

/-- The trace of the successful tag-`a` iteration in the C1 scenario. -/
def trA : List Eff :=
  [.lookup "example.com/repo:a", .resolveCall "example.com/repo:a",
    .logAttempting "example.com/repo:a", .copyAttempt "example.com/repo:a",
    .record "example.com/repo:a", .logPulled "example.com/repo:a"]

/-- Witness for C1: the amended theorem applied to the concrete C1 world
with one successfully pulled tag and cancellation before tag `b`. -/
theorem c1_witness :
    allTagsLoop w1 .missing allTagsOpts (trimNamed repoRef1)
        (["a"] ++ ["b", "c"]) 0 =
      (.error (.msg "pulling cancelled"),
        (List.range (["a"] : List String).length).flatMap fun _ => trA) :=
  c1_all_tags_cancellation w1 .missing allTagsOpts (trimNamed repoRef1)
    (fun _ => candA.value) (fun _ => "ida") (fun _ => trA)
    ["a"] ["b", "c"] 0
    (fun j hj => by
      have hj0 : j = 0 := Nat.lt_one_iff.mp hj
      subst hj0
      rfl)
    rfl
    (fun j hj => by
      have hj0 : j = 0 := Nat.lt_one_iff.mp hj
      subst hj0
      rfl)
    (fun j hj => by
      have hj0 : j = 0 := Nat.lt_one_iff.mp hj
      subst hj0
      rfl)
    (by simp)

end LibImage
